import Mathlib

/-!
Shallow embedding of the harvesting pipeline of `Stream.py` and of the
standalone schema script `setup_local_db.py` from the
Youtube-warehousing repository.

Remote calls are modelled by oracles: a function giving the outcome of the
i-th attempt (for the retry wrapper), the response of the i-th page (for
the paginated fetchers) or the response of a given id batch (for the
batched video fetch).  Status notifications emitted through the UI layer
(`st.warning`, `st.info`, `st.error`, `st.success`) are modelled as a list
of `Note` values; the runtime values interpolated into the message texts
are elided, keeping one fixed text per emission site.  Payload count
values are modelled as `Nat`: the source applies Python `int` to the
decimal digit strings carried by the API payload.
-/

/-- A status notification emitted through the UI layer. -/
inductive Note where
  | warning (msg : String)
  | info (msg : String)
  | error (msg : String)
  | success (msg : String)

deriving instance DecidableEq for Note

/-- Number of loop iterations of `safe_api_call` (`max_retries = 5` in the
source). -/
def max_retries : Nat := 5

/-- Backoff base delay in seconds (`initial_delay = 1` in the source). -/
def initial_delay : Nat := 1

/-- Outcome of one attempt of the wrapped remote call
(`request_callable(*args, **kwargs).execute()`): a payload, an `HttpError`
carrying a status code and the fact whether the text `quotaExceeded`
occurs in `str(e)`, or any other exception. -/
inductive ApiAttempt (α : Type) where
  | ok (payload : α)
  | httpError (status : Nat) (hasQuotaExceededText : Bool)
  | otherExn

deriving instance DecidableEq for ApiAttempt

/-- What `safe_api_call` hands back to its caller: a returned Python value
(the payload, or `None`) or a propagated exception (`raise`). -/
inductive CallResult (α : Type) where
  | value (v : Option α)
  | raised

deriving instance DecidableEq for CallResult

/-- Full observable behaviour of one `safe_api_call` invocation: the
result handed to the caller, the `time.sleep` delays in order, the number
of calls made to `request_callable`, and the emitted notifications. -/
structure CallTrace (α : Type) where
  result : CallResult α
  delays : List Nat
  attempts : Nat
  notes : List Note

deriving instance DecidableEq for CallTrace

def quotaRetryNote : Note := .warning "Quota exceeded. Retrying."

def notFoundNote : Note := .warning "Resource not found (404) for request. Skipping."

def apiErrorNote : Note := .error "An unexpected API error occurred."

def exnErrorNote : Note := .error "An unexpected error occurred during API call."

def giveUpNote : Note := .error "Failed after max retries due to quota issues."

/-- The `while retries < max_retries` loop of `safe_api_call`, with
`fuel = max_retries - retries` so that the recursion is structural.
Branches mirror the source: a 403 with `quotaExceeded` in the message
sleeps `initial_delay * 2 ** retries` and retries; a 404 returns `None`
with a warning; any other `HttpError` or exception re-raises; falling out
of the loop returns `None` with the give-up error message. -/
def safe_api_call_go {α : Type} (outcomes : Nat → ApiAttempt α) :
    Nat → Nat → CallTrace α
  | 0, _ => ⟨.value none, [], 0, [giveUpNote]⟩
  | fuel + 1, retries =>
    match outcomes retries with
    | .ok v => ⟨.value (some v), [], 1, []⟩
    | .httpError status quotaText =>
      if status = 403 ∧ quotaText = true then
        let delay := initial_delay * 2 ^ retries
        let rest := safe_api_call_go outcomes fuel (retries + 1)
        ⟨rest.result, delay :: rest.delays, rest.attempts + 1,
          quotaRetryNote :: rest.notes⟩
      else if status = 404 then
        ⟨.value none, [], 1, [notFoundNote]⟩
      else
        ⟨.raised, [], 1, [apiErrorNote]⟩
    | .otherExn => ⟨.raised, [], 1, [exnErrorNote]⟩

/-- `safe_api_call` from `Stream.py`: run the attempt oracle with
`retries = 0` and the full retry budget. -/
def safe_api_call {α : Type} (outcomes : Nat → ApiAttempt α) : CallTrace α :=
  safe_api_call_go outcomes max_retries 0

/-- Attempt oracle where every attempt hits a 404. -/
def oNotFound : Nat → ApiAttempt Nat := fun _ => .httpError 404 false

/-- Attempt oracle where every attempt hits a 403 quota error. -/
def oQuotaAlways : Nat → ApiAttempt Nat := fun _ => .httpError 403 true

/-- Code point starts of the runs of ten Unicode decimal digits
(category Nd), taken from the unicodedata tables of the CPython that runs
the source: a Python str-pattern `\\d` matches exactly these characters,
and `int` values each one by its offset inside its run. -/
def ndStarts : List Nat :=
  [48, 1632, 1776, 1984, 2406, 2534, 2662, 2790, 2918, 3046, 3174, 3302,
   3430, 3558, 3664, 3792, 3872, 4160, 4240, 6112, 6160, 6470, 6608, 6784,
   6800, 6992, 7088, 7232, 7248, 42528, 43216, 43264, 43472, 43504, 43600,
   44016, 65296, 66720, 68912, 69734, 69872, 69942, 70096, 70384, 70736,
   70864, 71248, 71360, 71472, 71904, 72016, 72784, 73040, 73120, 92768,
   92864, 93008, 120782, 120792, 120802, 120812, 120822, 123200, 123632,
   125264, 130032]

/-- Python `\\d` on a str pattern: any Unicode decimal digit. -/
def pyIsDigit (c : Char) : Bool :=
  ndStarts.any fun s => s ≤ c.toNat && c.toNat < s + 10

/-- Decimal value of a Unicode decimal digit: its offset inside its Nd
run (what Python `int` assigns to it). -/
def pyDigitVal (c : Char) : Nat :=
  match ndStarts.find? fun s => s ≤ c.toNat && c.toNat < s + 10 with
  | some s => c.toNat - s
  | none => 0

/-- Maximal `\\d` prefix of a character list, together with the rest,
mirroring how a greedy `\\d+` consumes the input. -/
def takeDigits : List Char → List Char × List Char
  | [] => ([], [])
  | c :: rest =>
    if pyIsDigit c then
      let p := takeDigits rest
      (c :: p.1, p.2)
    else ([], c :: rest)

/-- Python `int` applied to a captured run of decimal digits. -/
def digitsToNat (l : List Char) : Nat :=
  l.foldl (fun a c => 10 * a + pyDigitVal c) 0

/-- One optional component of the duration regex, such as `(?:(\\d+)H)?`:
consume a non-empty digit run immediately followed by the unit marker, or
consume nothing and yield 0.  Because the unit markers are not digits, the
greedy parse agrees with the backtracking regex. -/
def parseComp (marker : Char) (l : List Char) : Nat × List Char :=
  match takeDigits l with
  | ([], _) => (0, l)
  | (_ :: _, []) => (0, l)
  | (c :: d, m :: rest) =>
    if m = marker then (digitsToNat (c :: d), rest) else (0, l)

/-- The anchored match of the source regex: the two-character prefix,
then the three optional components, then the end anchor.  Python treats
the dollar anchor (without re.MULTILINE) as matching at the very end of
the string or just before one newline that ends the string, so the
remainder after the components may be empty or a single final newline. -/
def durParse (s : String) : Option (Nat × Nat × Nat) :=
  match s.data with
  | p :: t :: rest =>
    if p = 'P' ∧ t = 'T' then
      let h := parseComp 'H' rest
      let m := parseComp 'M' h.2
      let sec := parseComp 'S' m.2
      if sec.2 = [] ∨ sec.2 = ['\n'] then some (h.1, m.1, sec.1) else none
    else none
  | _ => none

/-- `iso8601_duration_to_seconds` from `Stream.py`: on a regex match, sum
`hours * 3600 + minutes * 60 + seconds` with absent groups counted as 0;
on no match, return 0. -/
def iso8601_duration_to_seconds (duration : String) : Nat :=
  match durParse duration with
  | some (h, m, sec) => h * 3600 + m * 60 + sec
  | none => 0

/-- An ASCII decimal digit — the digits of the grammar as the
specification words it. -/
def isSpecDigit (c : Char) : Bool :=
  48 ≤ c.toNat && c.toNat ≤ 57

/-- Spec-side reference: maximal ASCII digit prefix. -/
def specTakeDigits : List Char → List Char × List Char
  | [] => ([], [])
  | c :: rest =>
    if isSpecDigit c then
      let p := specTakeDigits rest
      (c :: p.1, p.2)
    else ([], c :: rest)

/-- Spec-side reference: value of an ASCII decimal digit run. -/
def specDigitsToNat (l : List Char) : Nat :=
  l.foldl (fun a c => 10 * a + (c.toNat - 48)) 0

/-- Spec-side reference: one optional component over ASCII digits. -/
def specParseComp (marker : Char) (l : List Char) : Nat × List Char :=
  match specTakeDigits l with
  | ([], _) => (0, l)
  | (_ :: _, []) => (0, l)
  | (c :: d, m :: rest) =>
    if m = marker then (specDigitsToNat (c :: d), rest) else (0, l)

/-- Spec-side reference recognizer of the duration grammar exactly as the
specification words it: mandatory two-character prefix, the three
optional ASCII digit-run components, then the strict end of the token. -/
def specDurParse (s : String) : Option (Nat × Nat × Nat) :=
  match s.data with
  | p :: t :: rest =>
    if p = 'P' ∧ t = 'T' then
      let h := specParseComp 'H' rest
      let m := specParseComp 'M' h.2
      let sec := specParseComp 'S' m.2
      if sec.2 = [] then some (h.1, m.1, sec.1) else none
    else none
  | _ => none

/-- Spec-side grammar: a non-empty run of ASCII decimal digits whose
value is `n`. -/
def DigitRun (l : List Char) (n : Nat) : Prop :=
  l ≠ [] ∧ (∀ c ∈ l, isSpecDigit c = true) ∧ specDigitsToNat l = n

/-- Spec-side grammar: an optional component is either absent (valued 0)
or a digit run followed by its unit marker. -/
def OptComp (marker : Char) (l : List Char) (n : Nat) : Prop :=
  (l = [] ∧ n = 0) ∨ ∃ d, DigitRun d n ∧ l = d ++ [marker]

/-- Spec-side grammar of a duration token, written from the words of the
specification: mandatory two-character prefix `PT`, then optional
digit-runs for hours, minutes and seconds with their unit markers. -/
def DurationGrammar (s : String) (h m sec : Nat) : Prop :=
  ∃ hp mp sp, OptComp 'H' hp h ∧ OptComp 'M' mp m ∧ OptComp 'S' sp sec ∧
    s.data = 'P' :: 'T' :: (hp ++ (mp ++ sp))

/-- The language the source actually accepts: a non-empty run of Unicode
decimal digits whose `int` value is `n`. -/
def PyDigitRun (l : List Char) (n : Nat) : Prop :=
  l ≠ [] ∧ (∀ c ∈ l, pyIsDigit c = true) ∧ digitsToNat l = n

/-- The language the source actually accepts: an optional component over
Unicode digit runs. -/
def PyOptComp (marker : Char) (l : List Char) (n : Nat) : Prop :=
  (l = [] ∧ n = 0) ∨ ∃ d, PyDigitRun d n ∧ l = d ++ [marker]

/-- The language the source actually accepts: the grammar components
over Unicode digit runs, optionally followed by one final newline (the
dollar anchor of the Python regex also matches just before it). -/
def PyDurationMatch (s : String) (h m sec : Nat) : Prop :=
  ∃ hp mp sp tail, PyOptComp 'H' hp h ∧ PyOptComp 'M' mp m ∧
    PyOptComp 'S' sp sec ∧ (tail = [] ∨ tail = ['\n']) ∧
    s.data = 'P' :: 'T' :: (hp ++ (mp ++ (sp ++ tail)))

/-- Substring helper, first half: does `pat` start the list `l`?  Models
the Python `in` test on strings. -/
def startsWithPat : List Char → List Char → Bool
  | [], _ => true
  | _ :: _, [] => false
  | p :: ps, c :: cs => p = c && startsWithPat ps cs

/-- Substring helper, second half: does `pat` occur anywhere in `l`? -/
def containsPat (pat : List Char) : List Char → Bool
  | [] => pat.isEmpty
  | c :: cs => startsWithPat pat (c :: cs) || containsPat pat cs

/-- Python `pat in s` on strings. -/
def strContainsSub (s pat : String) : Bool :=
  containsPat pat.data s.data

/-- One item of a commentThreads page, with the fields the source reads
through chained `.get` calls (each may be absent, hence `Option`). -/
structure CommentThreadItem where
  id : Option String
  textDisplay : Option String
  authorDisplayName : Option String
  publishedAt : Option String
  videoId : Option String

deriving instance DecidableEq for CommentThreadItem

/-- One entry of the `errors` list of a structured API error body;
`reason` models `detail.get("reason", "")`. -/
structure ApiErrorDetail where
  reason : String

deriving instance DecidableEq for ApiErrorDetail

/-- Body that `safe_api_call` hands back for one commentThreads page:
either a structured error dict (a dict with an `error` key and no
`items`), or a page of items with an optional continuation token. -/
inductive CommentThreadsResponse where
  | errorBody (code : Nat) (errors : List ApiErrorDetail)
  | page (items : List CommentThreadItem) (nextPageToken : Option String)

deriving instance DecidableEq for CommentThreadsResponse

/-- A row of the comments DataFrame built by `comments_inf`: payload
fields come from the top-level comment snippet, `channel_id` comes from
the caller's argument. -/
structure CommentRecord where
  comment_id : Option String
  Comment_Text : Option String
  Comment_Authorname : Option String
  published_date : Option String
  video_id : Option String
  channel_id : String

deriving instance DecidableEq for CommentRecord

/-- The dict built for one comment thread item inside `comments_inf`. -/
def commentOfItem (item : CommentThreadItem) (ch : String) : CommentRecord :=
  { comment_id := item.id
    Comment_Text := item.textDisplay
    Comment_Authorname := item.authorDisplayName
    published_date := item.publishedAt
    video_id := item.videoId
    channel_id := ch }

def disabledNote : Note := .warning "Comments are disabled for video. Skipping."

def other403Note : Note := .error "Unhandled 403 API error for video."

def noMoreCommentsNote : Note := .info "No more comments found for video or end of pages."

/-- The inner `while True` pagination loop of `comments_inf` for one
video.  `pages i` is what `safe_api_call` returns for the i-th request of
this video (`none` models the `None` return).  Mirrors the source: stop
on `None`; on a structured 403 body, stop with a warning when some error
detail's reason contains `commentsDisabled` and with an error otherwise;
on a page, append its records and continue while a truthy
`nextPageToken` is present (Python treats the empty string as falsy); a
structured non-403 body or an empty item list stops with an info note. -/
def comments_for_video (pages : Nat → Option CommentThreadsResponse)
    (ch : String) : Nat → Nat → List CommentRecord × List Note
  | 0, _ => ([], [])
  | fuel + 1, idx =>
    match pages idx with
    | none => ([], [])
    | some (.errorBody code errors) =>
      if code = 403 then
        if errors.any fun d => strContainsSub d.reason "commentsDisabled" then
          ([], [disabledNote])
        else
          ([], [other403Note])
      else ([], [noMoreCommentsNote])
    | some (.page items tok) =>
      match items with
      | [] => ([], [noMoreCommentsNote])
      | i0 :: irest =>
        let recs := (i0 :: irest).map fun item => commentOfItem item ch
        match tok with
        | none => (recs, [])
        | some t =>
          if t = "" then (recs, [])
          else
            let r := comments_for_video pages ch fuel (idx + 1)
            (recs ++ r.1, r.2)

/-- The per-video loop of `comments_inf`: records accumulate into one
list across all videos, in video order. -/
def comments_inf_loop (pages : String → Nat → Option CommentThreadsResponse)
    (ch : String) (fuel : Nat) :
    List String → List CommentRecord × List Note
  | [] => ([], [])
  | v :: rest =>
    let r := comments_for_video (pages v) ch fuel 0
    let r2 := comments_inf_loop pages ch fuel rest
    (r.1 ++ r2.1, r.2 ++ r2.2)

def noVideoIdsForCommentsNote : Note := .warning "No video IDs provided to fetch comments."

/-- `comments_inf` from `Stream.py`: warn and return an empty frame on an
empty id list, otherwise run the per-video pagination loops. -/
def comments_inf (pages : String → Nat → Option CommentThreadsResponse)
    (video_ids : List String) (current_channel_id_for_comments : String)
    (fuel : Nat) : List CommentRecord × List Note :=
  match video_ids with
  | [] => ([], [noVideoIdsForCommentsNote])
  | v :: rest =>
    comments_inf_loop pages current_channel_id_for_comments fuel (v :: rest)

/-- One playlistItems page: the projected video ids
(`item.snippet.resourceId.videoId` for each item, in order) and the
optional continuation token. -/
structure PlaylistPage where
  items : List String
  nextPageToken : Option String

deriving instance DecidableEq for PlaylistPage

/-- Positional lookup in a list (the page oracle built from a page
list). -/
def listNth {α : Type} : List α → Nat → Option α
  | [], _ => none
  | x :: _, 0 => some x
  | _ :: r, n + 1 => listNth r n

/-- Page oracle of a fixed page list: the i-th request yields the i-th
page, requests beyond the end fail terminally. -/
def pagesOfList (l : List PlaylistPage) : Nat → Option PlaylistPage :=
  fun i => listNth l i

/-- The `while True` pagination loop of `playlist_videos_id` for one
channel: stop when `safe_api_call` returned `None` (keeping the
accumulator), otherwise append the page's video ids and stop exactly when
`nextPageToken is None`. -/
def playlist_pages_loop (pages : Nat → Option PlaylistPage) :
    Nat → Nat → List String → List String
  | 0, _, acc => acc
  | fuel + 1, idx, acc =>
    match pages idx with
    | none => acc
    | some r =>
      let acc2 := acc ++ r.items
      match r.nextPageToken with
      | none => acc2
      | some _ => playlist_pages_loop pages fuel (idx + 1) acc2

/-- `playlist_videos_id` from `Stream.py`.  `chanResp c` models the
channel lookup: `some pid` when the response has items (with uploads
playlist `pid`), `none` when the call failed or returned no items (the
source then emits an error and contributes nothing for that channel).
`pages c` is the playlistItems page oracle of channel `c`.  Per-channel
id lists are concatenated in channel order (`all_video_ids.extend`). -/
def playlist_videos_id (chanResp : String → Option String)
    (pages : String → Nat → Option PlaylistPage) (fuel : Nat) :
    List String → List String
  | [] => []
  | c :: rest =>
    let vids :=
      match chanResp c with
      | some _pid => playlist_pages_loop (pages c) fuel 0 []
      | none => []
    vids ++ playlist_videos_id chanResp pages fuel rest

/-- One item of a videos().list response, with the fields the source
reads; chained `.get` calls make each field optional, `tags` defaults to
the empty list, and the statistics dict is a partial map from key to the
count value. -/
structure VideoApiItem where
  id : Option String
  title : Option String
  description : Option String
  channelId : Option String
  tags : List String
  publishedAt : Option String
  stats : List (String × Nat)
  duration : Option String
  thumbnailUrl : Option String
  caption : Option String

deriving instance DecidableEq for VideoApiItem

/-- Body of one videos().list response handed back by `safe_api_call`. -/
structure VideoListResponse where
  items : List VideoApiItem

deriving instance DecidableEq for VideoListResponse

/-- A row of the videos DataFrame built by `videos_data` (and a row of
the `videos` table). -/
structure VideoRecord where
  Video_Id : Option String
  Video_title : Option String
  Video_Description : Option String
  channel_id : Option String
  video_tags : String
  Video_pubdate : Option String
  Video_viewcount : Nat
  Video_likecount : Nat
  Video_favoritecount : Nat
  Video_commentcount : Nat
  Video_duration : Nat
  Video_thumbnails : Option String
  Video_caption : String

deriving instance DecidableEq for VideoRecord

/-- Python `dict.get` on the statistics map. -/
def dictGetNat (d : List (String × Nat)) (k : String) : Option Nat :=
  (d.find? fun p => p.1 = k).map fun p => p.2

/-- Python `", ".join`. -/
def joinWithCommas : List String → String
  | [] => ""
  | [s] => s
  | s :: s2 :: rest => s ++ ", " ++ joinWithCommas (s2 :: rest)

/-- The `video_info` dict built for one item inside `videos_data`:
count fields default to 0 when absent from the statistics dict, the
duration string defaults to `PT0S` before decoding, the caption flag
defaults to the string `false`. -/
def videoRecordOfItem (item : VideoApiItem) : VideoRecord :=
  { Video_Id := item.id
    Video_title := item.title
    Video_Description := item.description
    channel_id := item.channelId
    video_tags := joinWithCommas item.tags
    Video_pubdate := item.publishedAt
    Video_viewcount := (dictGetNat item.stats "viewCount").getD 0
    Video_likecount := (dictGetNat item.stats "likeCount").getD 0
    Video_favoritecount := (dictGetNat item.stats "favoriteCount").getD 0
    Video_commentcount := (dictGetNat item.stats "commentCount").getD 0
    Video_duration := iso8601_duration_to_seconds (item.duration.getD "PT0S")
    Video_thumbnails := item.thumbnailUrl
    Video_caption := item.caption.getD "false" }

/-- The batch decomposition performed by
`for i in range(0, len(video_ids), 50): batch_ids = video_ids[i:i+50]`,
written with a fuel argument (one unit per chunk suffices, the list
length is a safe bound) so that the recursion is structural. -/
def chunkBatchesGo : Nat → List String → List (List String)
  | 0, _ => []
  | _ + 1, [] => []
  | g + 1, x :: rest => (x :: rest.take 49) :: chunkBatchesGo g (rest.drop 49)

/-- The consecutive batches of at most 50 ids taken from the input in
order. -/
def chunkBatches (l : List String) : List (List String) :=
  chunkBatchesGo l.length l

def emptyBatchNote : Note := .warning "No data returned for video batch."

def noVideoIdsNote : Note := .warning "No video IDs provided to fetch data."

/-- The per-batch loop of `videos_data`: one remote call per batch.  The
middle component records the id list of every call issued, in order.  A
batch whose response is `None` or carries no items only emits a warning;
its records are skipped and the remaining batches still run. -/
def videos_data_go (call : List String → Option VideoListResponse) :
    List (List String) → List VideoRecord × List (List String) × List Note
  | [] => ([], [], [])
  | batch :: rest =>
    let r := videos_data_go call rest
    match call batch with
    | some resp =>
      match resp.items with
      | [] => (r.1, batch :: r.2.1, emptyBatchNote :: r.2.2)
      | i0 :: irest =>
        (((i0 :: irest).map videoRecordOfItem) ++ r.1, batch :: r.2.1, r.2.2)
    | none => (r.1, batch :: r.2.1, emptyBatchNote :: r.2.2)

/-- `videos_data` from `Stream.py`: warn and return an empty frame on an
empty id list, otherwise issue one multi-id call per batch of at most 50
ids and flatten the per-batch records in order. -/
def videos_data (call : List String → Option VideoListResponse)
    (video_ids : List String) :
    List VideoRecord × List (List String) × List Note :=
  match video_ids with
  | [] => ([], [], [noVideoIdsNote])
  | v :: rest => videos_data_go call (chunkBatches (v :: rest))

/-- The records `videos_data` keeps for one batch: none when the call
failed or returned no items. -/
def perBatchRecords (call : List String → Option VideoListResponse)
    (batch : List String) : List VideoRecord :=
  match call batch with
  | some resp => resp.items.map videoRecordOfItem
  | none => []

/-- The one-row DataFrame built by `channel_info` (count columns carry
the payload values verbatim: `channel_info` applies no `int` coercion and
no default). -/
structure ChannelRow where
  Channel_Name : String
  Channel_Id : String
  Channel_Des : String
  Channel_playid : String
  channel_viewcount : String
  channel_subcount : String

deriving instance DecidableEq for ChannelRow

/-- One item of a channels().list response.  The snippet and
contentDetails fields read by the source are modelled as always present
(they are for a well-formed channel resource); the statistics dict is a
partial map, since the claims concern keys absent from it. -/
structure ChannelApiItem where
  title : String
  id : String
  description : String
  uploadsPlaylist : String
  statistics : List (String × String)

deriving instance DecidableEq for ChannelApiItem

/-- Body of one channels().list response. -/
structure ChannelListResponse where
  items : List ChannelApiItem

deriving instance DecidableEq for ChannelListResponse

/-- Python `dict[k]` access as an option; `channel_info` raises KeyError
when it is `none`. -/
def dictGetStr (d : List (String × String)) (k : String) : Option String :=
  (d.find? fun p => p.1 = k).map fun p => p.2

/-- `channel_info` from `Stream.py`, applied to what `safe_api_call`
returned.  A `None` response or an empty item list yields an empty
DataFrame (`Except.ok none`) with a warning; otherwise the statistics
counts are read by direct subscripting, so an absent key raises KeyError
(`Except.error`), aborting the fetch. -/
def channel_info (resp : Option ChannelListResponse) :
    Except String (Option ChannelRow) :=
  match resp with
  | none => Except.ok none
  | some r =>
    match r.items with
    | [] => Except.ok none
    | item :: _ =>
      match dictGetStr item.statistics "viewCount",
            dictGetStr item.statistics "subscriberCount" with
      | some vc, some sc =>
        Except.ok (some ⟨item.title, item.id, item.description,
          item.uploadsPlaylist, vc, sc⟩)
      | some _, none => Except.error "KeyError"
      | none, _ => Except.error "KeyError"

def channelInsertedNote : Note := .success "Channel data inserted."

def channelDupNote : Note := .info "Channel already exists. Skipping insertion."

def channelFetchFailNote : Note := .warning "Could not fetch data for channel ID."

/-- `eachchanneldetails` from `Stream.py`: one `to_sql` per channel row.
A duplicate `channel_id` primary key raises `sqlite3.IntegrityError`,
which the source catches separately from other exceptions and reports as
an informational skip; the loop then continues with the remaining
channel ids.  `fetched` models `channel_info` per id (an empty DataFrame
becomes `none`). -/
def eachchanneldetails (fetched : String → Option ChannelRow) :
    List String → List ChannelRow → List ChannelRow × List Note
  | [], tbl => (tbl, [])
  | cid :: rest, tbl =>
    match fetched cid with
    | some row =>
      if tbl.any fun r => r.Channel_Id = row.Channel_Id then
        let r := eachchanneldetails fetched rest tbl
        (r.1, channelDupNote :: r.2)
      else
        let r := eachchanneldetails fetched rest (tbl ++ [row])
        (r.1, channelInsertedNote :: r.2)
    | none =>
      let r := eachchanneldetails fetched rest tbl
      (r.1, channelFetchFailNote :: r.2)

/-- Key equality used by the primary-key checks: SQLite rejects two rows
with the same non-NULL key; NULL keys never collide. -/
def keyEq : Option String → Option String → Bool
  | some a, some b => a = b
  | _, _ => false

/-- Does inserting `df` into a table currently holding `tbl` violate the
`Video_Id` primary key (a key already stored, or repeated inside the
batch)? -/
def videoInsertConflict : List VideoRecord → List VideoRecord → Bool
  | _, [] => false
  | tbl, r :: rest =>
    (tbl.any fun x => keyEq x.Video_Id r.Video_Id) ||
      videoInsertConflict (tbl ++ [r]) rest

def videosInsertedNote : Note := .success "Successfully inserted video records."

def videosInsertErrorNote : Note := .error "Error inserting video data."

def noVideoDataNote : Note := .warning "No video data to insert."

/-- `insert_videos_into_sqlite` from `Stream.py`: the whole DataFrame is
written by one `to_sql` call, which pandas runs inside a single
transaction.  An `IntegrityError` raised for any duplicate `Video_Id`
rolls the entire batch back and lands in the one generic
`except Exception` handler, so the table is unchanged and only the
generic error message is emitted.  An empty DataFrame is a warning-level
no-op. -/
def insert_videos_into_sqlite (tbl df1 : List VideoRecord) :
    List VideoRecord × Note :=
  match df1 with
  | [] => (tbl, noVideoDataNote)
  | r :: rest =>
    if videoInsertConflict tbl (r :: rest) then (tbl, videosInsertErrorNote)
    else (tbl ++ (r :: rest), videosInsertedNote)

/-- Duplicate check for the `comment_id` primary key of the comments
table. -/
def commentInsertConflict : List CommentRecord → List CommentRecord → Bool
  | _, [] => false
  | tbl, r :: rest =>
    (tbl.any fun x => keyEq x.comment_id r.comment_id) ||
      commentInsertConflict (tbl ++ [r]) rest

def commentsInsertedNote : Note := .success "Successfully inserted comment records."

def commentsInsertErrorNote : Note := .error "Error inserting comment data."

def noCommentDataNote : Note := .warning "No comment data to insert."

/-- `insert_comments_into_sqlite` from `Stream.py`: same single
`to_sql` transaction shape as the video insert. -/
def insert_comments_into_sqlite (tbl df2 : List CommentRecord) :
    List CommentRecord × Note :=
  match df2 with
  | [] => (tbl, noCommentDataNote)
  | r :: rest =>
    if commentInsertConflict tbl (r :: rest) then (tbl, commentsInsertErrorNote)
    else (tbl ++ (r :: rest), commentsInsertedNote)

/-- One column of a CREATE TABLE statement. -/
structure ColumnDef where
  name : String
  sqlType : String
  isPrimaryKey : Bool

deriving instance DecidableEq for ColumnDef

/-- One table schema. -/
structure TableDef where
  name : String
  columns : List ColumnDef

deriving instance DecidableEq for TableDef

/-- The `videos` DDL at the top of `Stream.py` (and repeated inside
`insert_videos_into_sqlite`). -/
def stream_videos_table : TableDef :=
  { name := "videos"
    columns :=
      [⟨"Video_Id", "TEXT", true⟩,
       ⟨"Video_title", "TEXT", false⟩,
       ⟨"Video_Description", "TEXT", false⟩,
       ⟨"channel_id", "TEXT", false⟩,
       ⟨"video_tags", "TEXT", false⟩,
       ⟨"Video_pubdate", "TEXT", false⟩,
       ⟨"Video_viewcount", "INTEGER", false⟩,
       ⟨"Video_likecount", "INTEGER", false⟩,
       ⟨"Video_favoritecount", "INTEGER", false⟩,
       ⟨"Video_commentcount", "INTEGER", false⟩,
       ⟨"Video_duration", "INTEGER", false⟩,
       ⟨"Video_thumbnails", "TEXT", false⟩,
       ⟨"Video_caption", "TEXT", false⟩] }

/-- The `channels` DDL at the top of `Stream.py`. -/
def stream_channels_table : TableDef :=
  { name := "channels"
    columns :=
      [⟨"channel_name", "TEXT", false⟩,
       ⟨"channel_id", "TEXT", true⟩,
       ⟨"channel_des", "TEXT", false⟩,
       ⟨"channel_playid", "TEXT", false⟩,
       ⟨"channel_viewcount", "INTEGER", false⟩,
       ⟨"channel_subcount", "INTEGER", false⟩] }

/-- The `comments` DDL at the top of `Stream.py`. -/
def stream_comments_table : TableDef :=
  { name := "comments"
    columns :=
      [⟨"comment_id", "TEXT", true⟩,
       ⟨"Comment_Text", "TEXT", false⟩,
       ⟨"Comment_Authorname", "TEXT", false⟩,
       ⟨"published_date", "TEXT", false⟩,
       ⟨"video_id", "TEXT", false⟩,
       ⟨"channel_id", "TEXT", false⟩] }

/-- The `videos` DDL of `setup_local_db.py`: no PRIMARY KEY anywhere and
`Video_duration` typed TEXT. -/
def setup_videos_table : TableDef :=
  { name := "videos"
    columns :=
      [⟨"Video_Id", "TEXT", false⟩,
       ⟨"Video_title", "TEXT", false⟩,
       ⟨"Video_Description", "TEXT", false⟩,
       ⟨"channel_id", "TEXT", false⟩,
       ⟨"video_tags", "TEXT", false⟩,
       ⟨"Video_pubdate", "TEXT", false⟩,
       ⟨"Video_viewcount", "INTEGER", false⟩,
       ⟨"Video_likecount", "INTEGER", false⟩,
       ⟨"Video_favoritecount", "INTEGER", false⟩,
       ⟨"Video_commentcount", "INTEGER", false⟩,
       ⟨"Video_duration", "TEXT", false⟩,
       ⟨"Video_thumbnails", "TEXT", false⟩,
       ⟨"Video_caption", "TEXT", false⟩] }

/-- The `channels` DDL of `setup_local_db.py`. -/
def setup_channels_table : TableDef :=
  { name := "channels"
    columns :=
      [⟨"channel_name", "TEXT", false⟩,
       ⟨"channel_id", "TEXT", false⟩,
       ⟨"channel_des", "TEXT", false⟩,
       ⟨"channel_playid", "TEXT", false⟩,
       ⟨"channel_viewcount", "INTEGER", false⟩,
       ⟨"channel_subcount", "INTEGER", false⟩] }

/-- The `comments` DDL of `setup_local_db.py` (note the lower-case
`comment_authorname` column). -/
def setup_comments_table : TableDef :=
  { name := "comments"
    columns :=
      [⟨"comment_id", "TEXT", false⟩,
       ⟨"Comment_Text", "TEXT", false⟩,
       ⟨"comment_authorname", "TEXT", false⟩,
       ⟨"published_date", "TEXT", false⟩,
       ⟨"video_id", "TEXT", false⟩,
       ⟨"channel_id", "TEXT", false⟩] }

/-- `CREATE TABLE IF NOT EXISTS`: a no-op when a table of that name is
already present, whatever its columns. -/
def createTableIfNotExists (db : List TableDef) (t : TableDef) : List TableDef :=
  if db.any fun u => u.name = t.name then db else db ++ [t]

/-- `ensure_tables` from `setup_local_db.py`: the three CREATE TABLE IF
NOT EXISTS statements in source order. -/
def ensure_tables (db : List TableDef) : List TableDef :=
  createTableIfNotExists
    (createTableIfNotExists
      (createTableIfNotExists db setup_videos_table)
      setup_channels_table)
    setup_comments_table

/-- The module-level DDL run at the start of `Stream.py`, in source
order. -/
def stream_startup_ddl (db : List TableDef) : List TableDef :=
  createTableIfNotExists
    (createTableIfNotExists
      (createTableIfNotExists db stream_videos_table)
      stream_channels_table)
    stream_comments_table

/-- Does the table declare any primary key? -/
def tableHasPrimaryKey (t : TableDef) : Bool :=
  t.columns.any fun c => c.isPrimaryKey

/-- Schema lookup by table name. -/
def lookupTable (db : List TableDef) (n : String) : Option TableDef :=
  db.find? fun t => t.name = n

/-- Column lookup by name. -/
def lookupColumn (t : TableDef) (n : String) : Option ColumnDef :=
  t.columns.find? fun c => c.name = n

/-- SQLite insert admissibility under the given schema: with a primary
key declared, a key already stored is rejected; without one, any row is
appended, duplicates included. -/
def insertKeyAccepted (t : TableDef) (existingKeys : List String)
    (k : String) : Bool :=
  !tableHasPrimaryKey t || !existingKeys.contains k

/-- A concrete video record used by witnesses and counterexamples. -/
def sampleVideo (vid : String) : VideoRecord :=
  { Video_Id := some vid
    Video_title := some "t"
    Video_Description := some "d"
    channel_id := some "c"
    video_tags := ""
    Video_pubdate := some "2022-01-01T00:00:00Z"
    Video_viewcount := 1
    Video_likecount := 1
    Video_favoritecount := 0
    Video_commentcount := 0
    Video_duration := 10
    Video_thumbnails := none
    Video_caption := "false" }

/-- A concrete channel row used by witnesses. -/
def sampleChannel (cid : String) : ChannelRow :=
  ⟨"name", cid, "des", "play", "10", "5"⟩

/-- A concrete comment thread item used by witnesses. -/
def sampleThreadItem (cid : String) : CommentThreadItem :=
  ⟨some cid, some "text", some "author", some "2022-01-01T00:00:00Z", some "vid"⟩

/-- A channels().list response whose statistics dict lacks the
`subscriberCount` key (a channel with a hidden subscriber count). -/
def hiddenSubsResponse : ChannelListResponse :=
  ⟨[⟨"name", "cid", "des", "uploads", [("viewCount", "10")]⟩]⟩

/-- Comment page oracle used by the C1 witness: video `bad` reports a
structured comments-disabled 403 body, video `ugly` reports another
structured 403 body, every other video serves one final page holding one
item. -/
def c1pages : String → Nat → Option CommentThreadsResponse := fun v i =>
  if v = "bad" then
    some (.errorBody 403 [⟨"commentsDisabled"⟩])
  else if v = "ugly" then
    some (.errorBody 403 [⟨"forbidden"⟩])
  else if i = 0 then
    some (.page [sampleThreadItem v] none)
  else none

/-- Attempt oracle hitting quota exactly four times, then succeeding. -/
def o4QuotaThenOk : Nat → ApiAttempt Nat := fun i =>
  if i < 4 then .httpError 403 true else .ok 42

/-- Channel lookup oracle used by the C4 witness. -/
def c4chanResp : String → Option String := fun _ => some "PL"

def c4page1 : PlaylistPage := ⟨["v1", "v2"], some "tok"⟩

def c4page2 : PlaylistPage := ⟨["v3"], none⟩

/-- Page oracle of a clean two-page playlist. -/
def c4fullPages : String → Nat → Option PlaylistPage :=
  fun _ => pagesOfList [c4page1, c4page2]

/-- Page oracle where the second page fails terminally. -/
def c4partialPages : String → Nat → Option PlaylistPage :=
  fun _ i => if i = 0 then some c4page1 else none

/-- 123 concrete video ids. -/
def c8ids : List String := List.replicate 123 "v"

/-- Batch call oracle used by the C8 witness. -/
def c8call : List String → Option VideoListResponse := fun _ => none

/-- Channel fetch oracle used by the C5 witness. -/
def c5fetched : String → Option ChannelRow := fun cid => some (sampleChannel cid)

/-- A video item whose statistics dict is empty. -/
def c6item : VideoApiItem :=
  ⟨none, none, none, none, [], none, [], none, none, none⟩

/-- A video item whose duration token carries a days component. -/
def c9item : VideoApiItem :=
  ⟨none, none, none, none, [], none, [], some "P1DT2H3M4S", none, none⟩

theorem go_succ_quota {α : Type} (outcomes : Nat → ApiAttempt α) (f retries : Nat)
    (h : outcomes retries = .httpError 403 true) :
    safe_api_call_go outcomes (f + 1) retries =
      ⟨(safe_api_call_go outcomes f (retries + 1)).result,
       initial_delay * 2 ^ retries ::
         (safe_api_call_go outcomes f (retries + 1)).delays,
       (safe_api_call_go outcomes f (retries + 1)).attempts + 1,
       quotaRetryNote :: (safe_api_call_go outcomes f (retries + 1)).notes⟩ := by
  simp [safe_api_call_go, h]

theorem go_succ_ok {α : Type} (outcomes : Nat → ApiAttempt α) (f retries : Nat)
    (v : α) (h : outcomes retries = .ok v) :
    safe_api_call_go outcomes (f + 1) retries = ⟨.value (some v), [], 1, []⟩ := by
  simp [safe_api_call_go, h]

theorem go_succ_404 {α : Type} (outcomes : Nat → ApiAttempt α) (f retries : Nat)
    (b : Bool) (h : outcomes retries = .httpError 404 b) :
    safe_api_call_go outcomes (f + 1) retries =
      ⟨.value none, [], 1, [notFoundNote]⟩ := by
  simp [safe_api_call_go, h]

theorem go_succ_exn {α : Type} (outcomes : Nat → ApiAttempt α) (f retries : Nat)
    (h : outcomes retries = .otherExn) :
    safe_api_call_go outcomes (f + 1) retries = ⟨.raised, [], 1, [exnErrorNote]⟩ := by
  simp [safe_api_call_go, h]

theorem go_quota_prefix {α : Type} (outcomes : Nat → ApiAttempt α) :
    ∀ (k fuel retries : Nat), k ≤ fuel →
    (∀ i, i < k → outcomes (retries + i) = .httpError 403 true) →
    safe_api_call_go outcomes fuel retries =
      ⟨(safe_api_call_go outcomes (fuel - k) (retries + k)).result,
       ((List.range k).map fun i => initial_delay * 2 ^ (retries + i)) ++
         (safe_api_call_go outcomes (fuel - k) (retries + k)).delays,
       (safe_api_call_go outcomes (fuel - k) (retries + k)).attempts + k,
       List.replicate k quotaRetryNote ++
         (safe_api_call_go outcomes (fuel - k) (retries + k)).notes⟩ := by
  intro k
  induction k with
  | zero =>
    intro fuel retries _ _
    simp
  | succ k ih =>
    intro fuel retries hk hq
    obtain ⟨f, rfl⟩ : ∃ f, fuel = f + 1 := ⟨fuel - 1, by omega⟩
    have h0 : outcomes retries = ApiAttempt.httpError 403 true := by
      simpa using hq 0 (by omega)
    have hq2 : ∀ i, i < k → outcomes (retries + 1 + i) = ApiAttempt.httpError 403 true := by
      intro i hi
      have hx := hq (i + 1) (by omega)
      rwa [show retries + (i + 1) = retries + 1 + i by omega] at hx
    rw [go_succ_quota outcomes f retries h0, ih f (retries + 1) (by omega) hq2]
    have e1 : f + 1 - (k + 1) = f - k := by omega
    have e2 : retries + 1 + k = retries + (k + 1) := by omega
    rw [e1, e2]
    have e3 : (fun i => initial_delay * 2 ^ (retries + 1 + i)) =
        fun i => initial_delay * 2 ^ (retries + (i + 1)) := by
      funext i
      rw [show retries + 1 + i = retries + (i + 1) by omega]
    simp only [CallTrace.mk.injEq]
    refine ⟨trivial, ?_, by omega, by simp [List.replicate_succ]⟩
    rw [e3, List.range_succ_eq_map, List.map_cons, List.map_map]
    simp [Function.comp_def]

/-- Claim C2: a call that hits the quota four times and then succeeds is
retried exactly four times with doubling sleeps 1, 2, 4, 8 and returns
the success payload after five attempts; five consecutive quota hits
terminate as a failure after exactly five attempts, with no sixth. -/
theorem C2_retry_backoff {α : Type} (outcomes : Nat → ApiAttempt α) (v : α)
    (hq : ∀ i, i < 4 → outcomes i = .httpError 403 true)
    (hok : outcomes 4 = .ok v) :
    safe_api_call outcomes =
      ⟨.value (some v), [1, 2, 4, 8], 5, List.replicate 4 quotaRetryNote⟩ ∧
    ∀ outs2 : Nat → ApiAttempt α,
      (∀ i, i < 5 → outs2 i = .httpError 403 true) →
      safe_api_call outs2 =
        ⟨.value none, [1, 2, 4, 8, 16], 5,
          List.replicate 5 quotaRetryNote ++ [giveUpNote]⟩ := by
  constructor
  · have hpre := go_quota_prefix outcomes 4 max_retries 0 (by decide)
      (fun i hi => by simpa using hq i hi)
    rw [safe_api_call, hpre]
    have hstep : safe_api_call_go outcomes (max_retries - 4) (0 + 4) =
        ⟨.value (some v), [], 1, []⟩ := by
      rw [show max_retries - 4 = 0 + 1 from rfl]
      exact go_succ_ok outcomes 0 (0 + 4) v (by simpa using hok)
    rw [hstep]
    congr 1
  · intro outs2 hq2
    have hpre := go_quota_prefix outs2 5 max_retries 0 (by decide)
      (fun i hi => by simpa using hq2 i hi)
    rw [safe_api_call, hpre]
    rw [show max_retries - 5 = 0 from rfl]
    rw [show safe_api_call_go outs2 0 (0 + 5) =
      ⟨.value none, [], 0, [giveUpNote]⟩ from rfl]
    congr 1

theorem C2_retry_backoff_witness :
    safe_api_call o4QuotaThenOk =
      ⟨.value (some 42), [1, 2, 4, 8], 5, List.replicate 4 quotaRetryNote⟩ :=
  (C2_retry_backoff o4QuotaThenOk 42
    (fun i hi => by simp [o4QuotaThenOk, hi]) (by decide)).1

/-- Claim C3 counterexample: the value handed back to the caller is the
same `None` both when the resource is absent (404 on the first attempt)
and when the retry budget is exhausted by quota errors, so the caller
cannot tell `NotFound` apart from the terminal give-up by the returned
result. -/
theorem C3_counterexample :
    (safe_api_call oNotFound).result = CallResult.value none ∧
    (safe_api_call oQuotaAlways).result = CallResult.value none ∧
    (safe_api_call oNotFound).result = (safe_api_call oQuotaAlways).result := by
  decide

/-- Claim C3 (amended): `safe_api_call` yields the payload on success, a
re-raised exception on an unexpected error, and the same returned value
`None` both for a 404 and for the post-retry give-up — the two are told
apart only by the emitted notification, which differs; a 404 is terminal
for the single call and does not consume the retry budget (after k quota
retries it returns at attempt k + 1 with exactly k sleeps). -/
theorem C3_amended_classification {α : Type} (outcomes : Nat → ApiAttempt α)
    (k : Nat) (b : Bool) (hk : k < max_retries)
    (hq : ∀ i, i < k → outcomes i = .httpError 403 true)
    (h404 : outcomes k = .httpError 404 b) :
    safe_api_call outcomes =
      ⟨.value none, (List.range k).map (fun i => initial_delay * 2 ^ i), k + 1,
        List.replicate k quotaRetryNote ++ [notFoundNote]⟩ ∧
    (∀ outs2 : Nat → ApiAttempt α,
      (∀ i, i < max_retries → outs2 i = .httpError 403 true) →
      safe_api_call outs2 =
        ⟨.value none,
          (List.range max_retries).map (fun i => initial_delay * 2 ^ i),
          max_retries, List.replicate max_retries quotaRetryNote ++ [giveUpNote]⟩) ∧
    (∀ (outs3 : Nat → ApiAttempt α) (v : α), outs3 0 = .ok v →
      safe_api_call outs3 = ⟨.value (some v), [], 1, []⟩) ∧
    (∀ outs4 : Nat → ApiAttempt α, outs4 0 = .otherExn →
      safe_api_call outs4 = ⟨.raised, [], 1, [exnErrorNote]⟩) ∧
    notFoundNote ≠ giveUpNote := by
  refine ⟨?_, ?_, ?_, ?_, by decide⟩
  · have hpre := go_quota_prefix outcomes k max_retries 0 (by omega)
      (fun i hi => by simpa using hq i hi)
    rw [safe_api_call, hpre]
    obtain ⟨m, hm⟩ : ∃ m, max_retries - k = m + 1 := ⟨max_retries - k - 1, by omega⟩
    rw [hm]
    rw [go_succ_404 outcomes m (0 + k) b (by simpa using h404)]
    simp only [CallTrace.mk.injEq]
    refine ⟨trivial, by simp, by omega, by simp⟩
  · intro outs2 hq2
    have hpre := go_quota_prefix outs2 max_retries max_retries 0 (by omega)
      (fun i hi => by simpa using hq2 i hi)
    rw [safe_api_call, hpre]
    rw [show max_retries - max_retries = 0 from rfl]
    rw [show safe_api_call_go outs2 0 (0 + max_retries) =
      ⟨.value none, [], 0, [giveUpNote]⟩ from rfl]
    simp only [CallTrace.mk.injEq]
    refine ⟨trivial, by simp, by omega, by simp⟩
  · intro outs3 v h
    rw [safe_api_call, show max_retries = 4 + 1 from rfl]
    exact go_succ_ok outs3 4 0 v h
  · intro outs4 h
    rw [safe_api_call, show max_retries = 4 + 1 from rfl]
    exact go_succ_exn outs4 4 0 h

theorem C3_amended_classification_witness :
    safe_api_call oNotFound =
      ⟨.value none, [], 1, [notFoundNote]⟩ := by
  have h := (C3_amended_classification oNotFound 0 false (by decide)
    (fun i hi => absurd hi (by omega)) rfl).1
  simpa using h

theorem comments_inf_loop_append
    (pages : String → Nat → Option CommentThreadsResponse) (ch : String)
    (fuel : Nat) (a b : List String) :
    comments_inf_loop pages ch fuel (a ++ b) =
      ((comments_inf_loop pages ch fuel a).1 ++ (comments_inf_loop pages ch fuel b).1,
       (comments_inf_loop pages ch fuel a).2 ++ (comments_inf_loop pages ch fuel b).2) := by
  induction a with
  | nil => simp [comments_inf_loop]
  | cons v rest ih => simp [comments_inf_loop, ih]

/-- Claim C1: a video whose first comment-thread response is a structured
403 body with a `commentsDisabled` reason contributes zero comment
records and only a warning; any other structured 403 body likewise
contributes zero records and an error report; in both cases that video's
pagination stops and the records harvested for the whole batch are
exactly those of the remaining videos, so no single video's failure
aborts the batch. -/
theorem C1_comment_batch_isolation
    (pages : String → Nat → Option CommentThreadsResponse)
    (pre post : List String) (v ch : String) (fuel : Nat)
    (errs : List ApiErrorDetail) (hf : 0 < fuel)
    (h403 : pages v 0 = some (.errorBody 403 errs)) :
    ((errs.any fun d => strContainsSub d.reason "commentsDisabled") = true →
      comments_for_video (pages v) ch fuel 0 = ([], [disabledNote])) ∧
    ((errs.any fun d => strContainsSub d.reason "commentsDisabled") = false →
      comments_for_video (pages v) ch fuel 0 = ([], [other403Note])) ∧
    (comments_inf_loop pages ch fuel (pre ++ v :: post)).1 =
      (comments_inf_loop pages ch fuel pre).1 ++
        (comments_inf_loop pages ch fuel post).1 := by
  obtain ⟨f, rfl⟩ : ∃ f, fuel = f + 1 := ⟨fuel - 1, by omega⟩
  have hdis : ∀ hb : Bool,
      (errs.any fun d => strContainsSub d.reason "commentsDisabled") = hb →
      comments_for_video (pages v) ch (f + 1) 0 =
        ([], [if hb then disabledNote else other403Note]) := by
    intro hb hany
    simp [comments_for_video, h403, hany]
    cases hb <;> simp
  refine ⟨fun hany => by simpa using hdis true hany,
          fun hany => by simpa using hdis false hany, ?_⟩
  have hmid : (comments_for_video (pages v) ch (f + 1) 0).1 = [] := by
    cases hany : errs.any fun d => strContainsSub d.reason "commentsDisabled" with
    | true => rw [hdis true hany]
    | false => rw [hdis false hany]
  rw [show v :: post = [v] ++ post from rfl,
      comments_inf_loop_append pages ch (f + 1) pre ([v] ++ post),
      comments_inf_loop_append pages ch (f + 1) [v] post]
  simp [comments_inf_loop, hmid]

theorem C1_comment_batch_isolation_witness :
    comments_for_video (c1pages "bad") "c" 3 0 = ([], [disabledNote]) ∧
    (comments_inf_loop c1pages "c" 3 (["a"] ++ "bad" :: ["b"])).1 =
      (comments_inf_loop c1pages "c" 3 ["a"]).1 ++
        (comments_inf_loop c1pages "c" 3 ["b"]).1 := by
  have h := C1_comment_batch_isolation c1pages ["a"] ["b"] "bad" "c" 3
    [⟨"commentsDisabled"⟩] (by omega) (by decide)
  exact ⟨h.1 (by decide), h.2.2⟩

theorem playlist_loop_acc (pages : Nat → Option PlaylistPage) :
    ∀ (fuel idx : Nat) (acc : List String),
    playlist_pages_loop pages fuel idx acc =
      acc ++ playlist_pages_loop pages fuel idx [] := by
  intro fuel
  induction fuel with
  | zero => intro idx acc; simp [playlist_pages_loop]
  | succ f ih =>
    intro idx acc
    cases hp : pages idx with
    | none => simp [playlist_pages_loop, hp]
    | some r =>
      cases ht : r.nextPageToken with
      | none => simp [playlist_pages_loop, hp, ht]
      | some t =>
        simp only [playlist_pages_loop, hp, ht]
        rw [ih (idx + 1) (acc ++ r.items), ih (idx + 1) ([] ++ r.items)]
        simp

theorem playlist_loop_shift (pages : Nat → Option PlaylistPage) :
    ∀ (fuel idx : Nat) (acc : List String),
    playlist_pages_loop pages fuel (idx + 1) acc =
      playlist_pages_loop (fun i => pages (i + 1)) fuel idx acc := by
  intro fuel
  induction fuel with
  | zero => intro idx acc; simp [playlist_pages_loop]
  | succ f ih =>
    intro idx acc
    cases hp : pages (idx + 1) with
    | none => simp [playlist_pages_loop, hp]
    | some r =>
      cases ht : r.nextPageToken with
      | none => simp [playlist_pages_loop, hp, ht]
      | some t =>
        simp only [playlist_pages_loop, hp, ht]
        exact ih (idx + 1) (acc ++ r.items)

theorem playlist_loop_full :
    ∀ (init : List PlaylistPage) (last : PlaylistPage) (fuel : Nat),
    init.length + 1 ≤ fuel →
    (∀ p ∈ init, p.nextPageToken ≠ none) →
    last.nextPageToken = none →
    playlist_pages_loop (pagesOfList (init ++ [last])) fuel 0 [] =
      ((init ++ [last]).map PlaylistPage.items).flatten := by
  intro init
  induction init with
  | nil =>
    intro last fuel hfuel _ hlast
    obtain ⟨f, rfl⟩ : ∃ f, fuel = f + 1 := ⟨fuel - 1, by omega⟩
    simp [playlist_pages_loop, pagesOfList, listNth, hlast]
  | cons p init ih =>
    intro last fuel hfuel hmid hlast
    obtain ⟨f, rfl⟩ : ∃ f, fuel = f + 1 := ⟨fuel - 1, by omega⟩
    have hp0 : pagesOfList ((p :: init) ++ [last]) 0 = some p := rfl
    obtain ⟨t, ht⟩ : ∃ t, p.nextPageToken = some t := by
      cases htok : p.nextPageToken with
      | none => exact absurd htok (hmid p (by simp))
      | some t => exact ⟨t, rfl⟩
    simp only [playlist_pages_loop, hp0, ht]
    rw [playlist_loop_shift (pagesOfList ((p :: init) ++ [last])) f 0 ([] ++ p.items)]
    have hsh : (fun i => pagesOfList ((p :: init) ++ [last]) (i + 1)) =
        pagesOfList (init ++ [last]) := by
      funext i
      rfl
    rw [hsh, playlist_loop_acc (pagesOfList (init ++ [last])) f 0 ([] ++ p.items)]
    rw [ih last f (by simpa using hfuel) (fun q hq => hmid q (by simp [hq])) hlast]
    simp

/-- Claim C4: for one channel whose lookup resolves, the pagination loop
accumulates every page's video ids in page order, stopping when the next
token is absent, so the result is the concatenation of all page items;
and when a later page fails terminally (the wrapped client returns
`None`), the ids gathered from the earlier pages are returned rather than
discarded — with page 2 failing, the result is exactly page 1's items. -/
theorem C4_paginator (chanResp : String → Option String)
    (pages : String → Nat → Option PlaylistPage) (c pid : String)
    (fuel : Nat) (init : List PlaylistPage) (last : PlaylistPage)
    (hc : chanResp c = some pid)
    (hp : pages c = pagesOfList (init ++ [last]))
    (hfuel : init.length + 1 ≤ fuel)
    (hmid : ∀ p ∈ init, p.nextPageToken ≠ none)
    (hlast : last.nextPageToken = none) :
    playlist_videos_id chanResp pages fuel [c] =
      ((init ++ [last]).map PlaylistPage.items).flatten ∧
    ∀ (pages2 : String → Nat → Option PlaylistPage)
      (items1 : List String) (t : String),
      pages2 c 0 = some ⟨items1, some t⟩ → pages2 c 1 = none → 2 ≤ fuel →
      playlist_videos_id chanResp pages2 fuel [c] = items1 := by
  constructor
  · simp only [playlist_videos_id, hc, hp]
    rw [playlist_loop_full init last fuel hfuel hmid hlast]
    simp [playlist_videos_id]
  · intro pages2 items1 t h0 h1 hf2
    obtain ⟨f, rfl⟩ : ∃ f, fuel = f + 1 + 1 := ⟨fuel - 2, by omega⟩
    simp only [playlist_videos_id, hc]
    simp [playlist_pages_loop, h0, h1, playlist_videos_id]

theorem C4_paginator_witness :
    playlist_videos_id c4chanResp c4fullPages 5 ["ch"] =
      (([c4page1, c4page2]).map PlaylistPage.items).flatten ∧
    playlist_videos_id c4chanResp c4partialPages 5 ["ch"] = ["v1", "v2"] := by
  have h := C4_paginator c4chanResp c4fullPages "ch" "PL" 5 [c4page1] c4page2
    rfl rfl (by decide) (by decide) rfl
  exact ⟨h.1, h.2 c4partialPages ["v1", "v2"] "tok" rfl rfl (by omega)⟩

/-- Claim C5 counterexample: with `A` already stored, bulk-inserting the
two-record set `[A, B]` (duplicate key `A`, fresh key `B`) through
`insert_videos_into_sqlite` leaves the table unchanged — the fresh-key
record `B` is NOT persisted — and reports the generic insertion error,
not a recoverable skipped outcome. -/
theorem C5_counterexample :
    insert_videos_into_sqlite [sampleVideo "A"] [sampleVideo "A", sampleVideo "B"] =
      ([sampleVideo "A"], videosInsertErrorNote) ∧
    sampleVideo "B" ∉
      (insert_videos_into_sqlite [sampleVideo "A"]
        [sampleVideo "A", sampleVideo "B"]).1 ∧
    videosInsertErrorNote = Note.error "Error inserting video data." := by
  decide

/-- Claim C5 (amended): the per-channel insert (`eachchanneldetails`)
writes one record at a time, so a duplicate key yields an informational
skip distinguishable from the error note of a hard failure, the key's
row count is unchanged, and later channels in the same batch are still
persisted; the bulk video and comment inserts instead write the whole
record set in one statement, so any duplicate key aborts the entire
batch through the generic error path with the table unchanged; inserting
an empty record set is a warning-level no-op for all three operations. -/
theorem C5_amended_store (fetched : String → Option ChannelRow)
    (tbl : List ChannelRow) (cid1 cid2 : String) (r1 r2 : ChannelRow)
    (h1 : fetched cid1 = some r1) (h2 : fetched cid2 = some r2)
    (hdup : (tbl.any fun r => r.Channel_Id = r1.Channel_Id) = true)
    (hnew : (tbl.any fun r => r.Channel_Id = r2.Channel_Id) = false) :
    eachchanneldetails fetched [cid1, cid2] tbl =
      (tbl ++ [r2], [channelDupNote, channelInsertedNote]) ∧
    (tbl ++ [r2]).countP (fun r => r.Channel_Id = r1.Channel_Id) =
      tbl.countP (fun r => r.Channel_Id = r1.Channel_Id) ∧
    (∀ msg, channelDupNote ≠ Note.error msg) ∧
    (∀ tblv : List VideoRecord,
      insert_videos_into_sqlite tblv [] = (tblv, noVideoDataNote)) ∧
    (∀ tblc : List CommentRecord,
      insert_comments_into_sqlite tblc [] = (tblc, noCommentDataNote)) ∧
    (∀ tblv df : List VideoRecord, videoInsertConflict tblv df = true →
      insert_videos_into_sqlite tblv df = (tblv, videosInsertErrorNote)) ∧
    (∀ tblc df : List CommentRecord, commentInsertConflict tblc df = true →
      insert_comments_into_sqlite tblc df = (tblc, commentsInsertErrorNote)) := by
  have hne : (tbl.any fun r => r.Channel_Id = r2.Channel_Id) ≠ true := by
    simp [hnew]
  refine ⟨?_, ?_, ?_, ?_, ?_, ?_, ?_⟩
  · simp [eachchanneldetails, h1, h2, hdup, hnew]
  · rw [List.countP_append]
    have : r2.Channel_Id ≠ r1.Channel_Id := by
      intro he
      rw [List.any_eq_true] at hdup
      obtain ⟨r, hr, hrk⟩ := hdup
      apply hne
      rw [List.any_eq_true]
      refine ⟨r, hr, ?_⟩
      simp only [decide_eq_true_eq] at hrk ⊢
      rw [hrk, he]
    simp [List.countP_cons, this]
  · intro msg
    simp [channelDupNote]
  · intro tblv; rfl
  · intro tblc; rfl
  · intro tblv df hc
    cases df with
    | nil => simp [videoInsertConflict] at hc
    | cons r rest => simp [insert_videos_into_sqlite, hc]
  · intro tblc df hc
    cases df with
    | nil => simp [commentInsertConflict] at hc
    | cons r rest => simp [insert_comments_into_sqlite, hc]

theorem C5_amended_store_witness :
    eachchanneldetails c5fetched ["X", "Y"] [sampleChannel "X"] =
      ([sampleChannel "X", sampleChannel "Y"],
        [channelDupNote, channelInsertedNote]) := by
  have h := C5_amended_store c5fetched [sampleChannel "X"] "X" "Y"
    (sampleChannel "X") (sampleChannel "Y") rfl rfl (by decide) (by decide)
  simpa using h.1

/-- Claim C6 counterexample: a channel whose statistics dict lacks the
`subscriberCount` key makes `channel_info` raise KeyError — the channel
is not recorded with subscriber count 0; the fetch fails instead. -/
theorem C6_counterexample :
    channel_info (some hiddenSubsResponse) = Except.error "KeyError" ∧
    ∀ row : ChannelRow, channel_info (some hiddenSubsResponse) ≠
      Except.ok (some row) := by
  refine ⟨rfl, ?_⟩
  intro row h
  rw [show channel_info (some hiddenSubsResponse) =
    Except.error "KeyError" from rfl] at h
  cases h

/-- Claim C6 (amended): the video record counts are coerced with a
default — a count key absent from the statistics dict is persisted as 0
— while `channel_info` performs direct dict subscripting with no default
and no coercion: when both channel counts are present they are copied
verbatim, and an absent `subscriberCount` (or `viewCount`) raises
KeyError, aborting the channel fetch instead of recording 0. -/
theorem C6_amended_counts :
    (∀ item : VideoApiItem,
      (dictGetNat item.stats "viewCount" = none →
        (videoRecordOfItem item).Video_viewcount = 0) ∧
      (dictGetNat item.stats "likeCount" = none →
        (videoRecordOfItem item).Video_likecount = 0) ∧
      (dictGetNat item.stats "favoriteCount" = none →
        (videoRecordOfItem item).Video_favoritecount = 0) ∧
      (dictGetNat item.stats "commentCount" = none →
        (videoRecordOfItem item).Video_commentcount = 0)) ∧
    (∀ (resp : ChannelListResponse) (item : ChannelApiItem)
      (rest : List ChannelApiItem), resp.items = item :: rest →
      dictGetStr item.statistics "subscriberCount" = none →
      channel_info (some resp) = Except.error "KeyError") ∧
    (∀ (resp : ChannelListResponse) (item : ChannelApiItem)
      (rest : List ChannelApiItem) (vc sc : String), resp.items = item :: rest →
      dictGetStr item.statistics "viewCount" = some vc →
      dictGetStr item.statistics "subscriberCount" = some sc →
      channel_info (some resp) =
        Except.ok (some ⟨item.title, item.id, item.description,
          item.uploadsPlaylist, vc, sc⟩)) := by
  refine ⟨?_, ?_, ?_⟩
  · intro item
    refine ⟨?_, ?_, ?_, ?_⟩ <;>
      (intro h; simp [videoRecordOfItem, h])
  · intro resp item rest hitems hsub
    cases hvc : dictGetStr item.statistics "viewCount" with
    | none => simp [channel_info, hitems, hvc]
    | some vc => simp [channel_info, hitems, hvc, hsub]
  · intro resp item rest vc sc hitems hvc hsub
    simp [channel_info, hitems, hvc, hsub]

theorem C6_amended_counts_witness :
    (videoRecordOfItem c6item).Video_viewcount = 0 ∧
    channel_info (some hiddenSubsResponse) = Except.error "KeyError" :=
  ⟨(C6_amended_counts.1 c6item).1 (by decide),
   C6_amended_counts.2.1 hiddenSubsResponse
     ⟨"name", "cid", "des", "uploads", [("viewCount", "10")]⟩ [] rfl rfl⟩

/-- Claim C10: the schema-setup script creates the three tables without
any PRIMARY KEY and with `Video_duration` typed TEXT, while the
application startup DDL declares primary keys (and INTEGER duration) on
the same table names; both use CREATE TABLE IF NOT EXISTS, so whichever
runs first fixes the schema — after `ensure_tables` runs first, the
stream DDL is a no-op, and re-inserting an existing key into the
keyless table is accepted as a duplicate row instead of being
rejected. -/
theorem C10_schema_divergence :
    lookupTable (stream_startup_ddl (ensure_tables [])) "videos" =
      some setup_videos_table ∧
    lookupTable (stream_startup_ddl (ensure_tables [])) "channels" =
      some setup_channels_table ∧
    lookupTable (stream_startup_ddl (ensure_tables [])) "comments" =
      some setup_comments_table ∧
    tableHasPrimaryKey setup_videos_table = false ∧
    tableHasPrimaryKey setup_channels_table = false ∧
    tableHasPrimaryKey setup_comments_table = false ∧
    tableHasPrimaryKey stream_videos_table = true ∧
    tableHasPrimaryKey stream_channels_table = true ∧
    tableHasPrimaryKey stream_comments_table = true ∧
    (lookupColumn setup_videos_table "Video_duration").map ColumnDef.sqlType =
      some "TEXT" ∧
    (lookupColumn stream_videos_table "Video_duration").map ColumnDef.sqlType =
      some "INTEGER" ∧
    lookupTable (ensure_tables (stream_startup_ddl [])) "videos" =
      some stream_videos_table ∧
    insertKeyAccepted setup_videos_table ["vid1"] "vid1" = true ∧
    insertKeyAccepted stream_videos_table ["vid1"] "vid1" = false := by
  decide

theorem chunkGo_flatten :
    ∀ (g : Nat) (l : List String), l.length ≤ g →
    (chunkBatchesGo g l).flatten = l := by
  intro g
  induction g with
  | zero =>
    intro l hl
    have hnil : l = [] := List.eq_nil_of_length_eq_zero (show l.length = 0 by omega)
    subst hnil
    rfl
  | succ g ih =>
    intro l hl
    cases l with
    | nil => rfl
    | cons x rest =>
      simp only [chunkBatchesGo, List.flatten_cons]
      rw [ih (rest.drop 49) (by simp at hl ⊢; omega)]
      simp

theorem videos_go_calls (call : List String → Option VideoListResponse) :
    ∀ bs : List (List String), (videos_data_go call bs).2.1 = bs := by
  intro bs
  induction bs with
  | nil => rfl
  | cons batch rest ih =>
    cases hb : call batch with
    | none => simp [videos_data_go, hb, ih]
    | some resp =>
      cases hi : resp.items with
      | nil => simp [videos_data_go, hb, hi, ih]
      | cons i0 irest => simp [videos_data_go, hb, hi, ih]

theorem videos_go_records (call : List String → Option VideoListResponse) :
    ∀ bs : List (List String),
    (videos_data_go call bs).1 = (bs.map (perBatchRecords call)).flatten := by
  intro bs
  induction bs with
  | nil => rfl
  | cons batch rest ih =>
    simp only [videos_data_go, List.map_cons, List.flatten_cons]
    cases hb : call batch with
    | none => simp [perBatchRecords, hb, ih]
    | some resp =>
      cases hi : resp.items with
      | nil => simp [perBatchRecords, hb, hi, ih]
      | cons i0 irest => simp [perBatchRecords, hb, hi, ih]

theorem chunk123_lengths :
    ∀ l : List String, l.length = 123 →
    (chunkBatches l).map List.length = [50, 50, 23] := by
  intro l hl
  rw [chunkBatches, hl]
  cases l with
  | nil => simp at hl
  | cons x rest =>
    have hr : rest.length = 122 := by simpa using hl
    rw [show (123 : Nat) = 122 + 1 from rfl]
    simp only [chunkBatchesGo]
    have h2 : (rest.drop 49).length = 73 := by simp [hr]
    cases h2c : rest.drop 49 with
    | nil => rw [h2c] at h2; simp at h2
    | cons y r2 =>
      rw [h2c] at h2
      have hr2 : r2.length = 72 := by simpa using h2
      rw [show (122 : Nat) = 121 + 1 from rfl]
      simp only [chunkBatchesGo]
      have h3 : (r2.drop 49).length = 23 := by simp [hr2]
      cases h3c : r2.drop 49 with
      | nil => rw [h3c] at h3; simp at h3
      | cons z r3 =>
        rw [h3c] at h3
        have hr3 : r3.length = 22 := by simpa using h3
        rw [show (121 : Nat) = 120 + 1 from rfl]
        simp only [chunkBatchesGo]
        have h4 : r3.drop 49 = [] :=
          List.eq_nil_of_length_eq_zero (by simp [hr3])
        rw [h4]
        rw [show (120 : Nat) = 119 + 1 from rfl]
        simp only [chunkBatchesGo]
        simp [List.length_take, hr, hr2, hr3]

/-- Claim C8: the batched video fetch splits the input ids into
consecutive chunks of at most 50 in input order (for 123 ids: exactly
three calls of sizes 50, 50 and 23), issues exactly one multi-id call per
chunk, flattens the per-chunk results in order, and a chunk that yields
no items is skipped without aborting the remaining chunks. -/
theorem C8_batched_fetch (call : List String → Option VideoListResponse)
    (ids : List String) (h123 : ids.length = 123) :
    (videos_data call ids).2.1 = chunkBatches ids ∧
    (chunkBatches ids).map List.length = [50, 50, 23] ∧
    (chunkBatches ids).flatten = ids ∧
    (videos_data call ids).1 =
      ((chunkBatches ids).map (perBatchRecords call)).flatten ∧
    ∀ b1 b2 b3 : List String, chunkBatches ids = [b1, b2, b3] →
      call b2 = none →
      (videos_data call ids).1 =
        perBatchRecords call b1 ++ perBatchRecords call b3 := by
  have hne : videos_data call ids = videos_data_go call (chunkBatches ids) := by
    cases ids with
    | nil => simp at h123
    | cons v rest => rfl
  refine ⟨by rw [hne]; exact videos_go_calls call (chunkBatches ids),
          chunk123_lengths ids h123,
          chunkGo_flatten ids.length ids (by omega),
          by rw [hne]; exact videos_go_records call (chunkBatches ids), ?_⟩
  intro b1 b2 b3 hb hnone
  rw [hne, videos_go_records call (chunkBatches ids), hb]
  simp [perBatchRecords, hnone]

theorem C8_batched_fetch_witness :
    (chunkBatches c8ids).map List.length = [50, 50, 23] ∧
    (chunkBatches c8ids).flatten = c8ids :=
  ⟨(C8_batched_fetch c8call c8ids (by simp [c8ids])).2.1,
   (C8_batched_fetch c8call c8ids (by simp [c8ids])).2.2.1⟩

theorem specTakeDigits_stops :
    ∀ (d : List Char) (c : Char) (r : List Char),
    (∀ x ∈ d, isSpecDigit x = true) → isSpecDigit c = false →
    specTakeDigits (d ++ c :: r) = (d, c :: r) := by
  intro d
  induction d with
  | nil =>
    intro c r _ hc
    simp [specTakeDigits, hc]
  | cons x d2 ih =>
    intro c r hd hc
    have hx : isSpecDigit x = true := hd x (by simp)
    simp [specTakeDigits, hx, ih c r (fun y hy => hd y (by simp [hy])) hc]

theorem specParseComp_present (marker : Char) (d : List Char) (n : Nat)
    (rest : List Char) (hdr : DigitRun d n) (hm : isSpecDigit marker = false) :
    specParseComp marker (d ++ marker :: rest) = (n, rest) := by
  obtain ⟨hne, hdig, hval⟩ := hdr
  simp only [specParseComp, specTakeDigits_stops d marker rest hdig hm]
  cases d with
  | nil => exact absurd rfl hne
  | cons c d2 => simp [hval]

theorem specParseComp_stop (marker : Char) (d : List Char) (c : Char)
    (r : List Char) (hdig : ∀ x ∈ d, isSpecDigit x = true)
    (hc : isSpecDigit c = false) (hne : c ≠ marker) :
    specParseComp marker (d ++ c :: r) = (0, d ++ c :: r) := by
  simp only [specParseComp, specTakeDigits_stops d c r hdig hc]
  cases d with
  | nil => simp
  | cons x d2 => simp [hne]

theorem specDurParse_of_grammar (s : String) (h m sec : Nat)
    (hg : DurationGrammar s h m sec) : specDurParse s = some (h, m, sec) := by
  obtain ⟨hp, mp, sp, hH, hM, hS, hdata⟩ := hg
  have hSd : specParseComp 'S' sp = (sec, []) := by
    rcases hS with ⟨rfl, rfl⟩ | ⟨ds, hds, rfl⟩
    · rfl
    · simpa using specParseComp_present 'S' ds sec [] hds (by decide)
  have hMd : specParseComp 'M' (mp ++ sp) = (m, sp) := by
    rcases hM with ⟨rfl, rfl⟩ | ⟨dm, hdm, rfl⟩
    · rcases hS with ⟨rfl, _⟩ | ⟨ds, hds, rfl⟩
      · rfl
      · simpa using specParseComp_stop 'M' ds 'S' [] hds.2.1 (by decide) (by decide)
    · simpa [List.append_assoc] using
        specParseComp_present 'M' dm m sp hdm (by decide)
  have hHd : specParseComp 'H' (hp ++ (mp ++ sp)) = (h, mp ++ sp) := by
    rcases hH with ⟨rfl, rfl⟩ | ⟨dh, hdh, rfl⟩
    · rcases hM with ⟨rfl, _⟩ | ⟨dm, hdm, rfl⟩
      · rcases hS with ⟨rfl, _⟩ | ⟨ds, hds, rfl⟩
        · rfl
        · simpa using specParseComp_stop 'H' ds 'S' [] hds.2.1 (by decide) (by decide)
      · simpa [List.append_assoc] using
          specParseComp_stop 'H' dm 'M' sp hdm.2.1 (by decide) (by decide)
    · simpa [List.append_assoc] using
        specParseComp_present 'H' dh h (mp ++ sp) hdh (by decide)
  simp [specDurParse, hdata, hHd, hMd, hSd]

theorem takeDigits_stops :
    ∀ (d : List Char) (c : Char) (r : List Char),
    (∀ x ∈ d, pyIsDigit x = true) → pyIsDigit c = false →
    takeDigits (d ++ c :: r) = (d, c :: r) := by
  intro d
  induction d with
  | nil =>
    intro c r _ hc
    simp [takeDigits, hc]
  | cons x d2 ih =>
    intro c r hd hc
    have hx : pyIsDigit x = true := hd x (by simp)
    simp [takeDigits, hx, ih c r (fun y hy => hd y (by simp [hy])) hc]

theorem parseComp_present (marker : Char) (d : List Char) (n : Nat)
    (rest : List Char) (hdr : PyDigitRun d n) (hm : pyIsDigit marker = false) :
    parseComp marker (d ++ marker :: rest) = (n, rest) := by
  obtain ⟨hne, hdig, hval⟩ := hdr
  simp only [parseComp, takeDigits_stops d marker rest hdig hm]
  cases d with
  | nil => exact absurd rfl hne
  | cons c d2 => simp [hval]

theorem parseComp_stop (marker : Char) (d : List Char) (c : Char)
    (r : List Char) (hdig : ∀ x ∈ d, pyIsDigit x = true)
    (hc : pyIsDigit c = false) (hne : c ≠ marker) :
    parseComp marker (d ++ c :: r) = (0, d ++ c :: r) := by
  simp only [parseComp, takeDigits_stops d c r hdig hc]
  cases d with
  | nil => simp
  | cons x d2 => simp [hne]

theorem durParse_of_pymatch (s : String) (h m sec : Nat)
    (hg : PyDurationMatch s h m sec) : durParse s = some (h, m, sec) := by
  obtain ⟨hp, mp, sp, tail, hH, hM, hS, htail, hdata⟩ := hg
  have hSd : parseComp 'S' (sp ++ tail) = (sec, tail) := by
    rcases hS with ⟨rfl, rfl⟩ | ⟨ds, hds, rfl⟩
    · rcases htail with rfl | rfl
      · rfl
      · simpa using parseComp_stop 'S' [] '\n' [] (by simp) (by decide) (by decide)
    · simpa [List.append_assoc] using
        parseComp_present 'S' ds sec tail hds (by decide)
  have hMd : parseComp 'M' (mp ++ (sp ++ tail)) = (m, sp ++ tail) := by
    rcases hM with ⟨rfl, rfl⟩ | ⟨dm, hdm, rfl⟩
    · rcases hS with ⟨rfl, _⟩ | ⟨ds, hds, rfl⟩
      · rcases htail with rfl | rfl
        · rfl
        · simpa using parseComp_stop 'M' [] '\n' [] (by simp) (by decide) (by decide)
      · simpa [List.append_assoc] using
          parseComp_stop 'M' ds 'S' tail hds.2.1 (by decide) (by decide)
    · simpa [List.append_assoc] using
        parseComp_present 'M' dm m (sp ++ tail) hdm (by decide)
  have hHd : parseComp 'H' (hp ++ (mp ++ (sp ++ tail))) =
      (h, mp ++ (sp ++ tail)) := by
    rcases hH with ⟨rfl, rfl⟩ | ⟨dh, hdh, rfl⟩
    · rcases hM with ⟨rfl, _⟩ | ⟨dm, hdm, rfl⟩
      · rcases hS with ⟨rfl, _⟩ | ⟨ds, hds, rfl⟩
        · rcases htail with rfl | rfl
          · rfl
          · simpa using parseComp_stop 'H' [] '\n' [] (by simp) (by decide) (by decide)
        · simpa [List.append_assoc] using
            parseComp_stop 'H' ds 'S' tail hds.2.1 (by decide) (by decide)
      · simpa [List.append_assoc] using
          parseComp_stop 'H' dm 'M' (sp ++ tail) hdm.2.1 (by decide) (by decide)
    · simpa [List.append_assoc] using
        parseComp_present 'H' dh h (mp ++ (sp ++ tail)) hdh (by decide)
  rcases htail with rfl | rfl
  · simp only [List.append_nil] at hSd hMd hHd
    simp [durParse, hdata, hHd, hMd, hSd]
  · simp [durParse, hdata, hHd, hMd, hSd]

theorem takeDigits_sound :
    ∀ (l d r : List Char), takeDigits l = (d, r) →
    l = d ++ r ∧ ∀ c ∈ d, pyIsDigit c = true := by
  intro l
  induction l with
  | nil =>
    intro d r h
    simp [takeDigits] at h
    obtain ⟨rfl, rfl⟩ := h
    simp
  | cons c rest ih =>
    intro d r h
    rcases hp : takeDigits rest with ⟨d2, r2⟩
    cases hdig : pyIsDigit c with
    | false =>
      simp [takeDigits, hdig] at h
      obtain ⟨rfl, rfl⟩ := h
      simp
    | true =>
      simp [takeDigits, hdig, hp] at h
      obtain ⟨rfl, rfl⟩ := h
      obtain ⟨hl, hd⟩ := ih d2 r2 hp
      constructor
      · simp [hl]
      · intro x hx
        rcases List.mem_cons.mp hx with rfl | hx2
        · exact hdig
        · exact hd x hx2

theorem parseComp_sound (marker : Char) (l : List Char) (n : Nat)
    (r : List Char) (h : parseComp marker l = (n, r)) :
    (n = 0 ∧ r = l) ∨ ∃ d, PyDigitRun d n ∧ l = d ++ marker :: r := by
  rcases htd : takeDigits l with ⟨d0, r0⟩
  obtain ⟨hl0, hdig0⟩ := takeDigits_sound l d0 r0 htd
  cases d0 with
  | nil =>
    simp [parseComp, htd] at h
    exact Or.inl ⟨h.1.symm, h.2.symm⟩
  | cons c d1 =>
    cases r0 with
    | nil =>
      simp [parseComp, htd] at h
      exact Or.inl ⟨h.1.symm, h.2.symm⟩
    | cons m0 rrest =>
      by_cases hm : m0 = marker
      · subst hm
        simp [parseComp, htd] at h
        refine Or.inr ⟨c :: d1, ⟨by simp, ?_, h.1⟩, ?_⟩
        · intro x hx
          exact hdig0 x hx
        · rw [hl0, h.2]
      · simp [parseComp, htd, hm] at h
        exact Or.inl ⟨h.1.symm, h.2.symm⟩

theorem pymatch_of_durParse (s : String) (h m sec : Nat)
    (hd : durParse s = some (h, m, sec)) : PyDurationMatch s h m sec := by
  rcases hsd : s.data with _ | ⟨p, _ | ⟨t, rest⟩⟩
  · simp [durParse, hsd] at hd
  · simp [durParse, hsd] at hd
  · by_cases hpt : p = 'P' ∧ t = 'T'
    · obtain ⟨rfl, rfl⟩ := hpt
      simp only [durParse, hsd] at hd
      rw [if_pos (by trivial)] at hd
      rcases hH : parseComp 'H' rest with ⟨hv, r1⟩
      rcases hM : parseComp 'M' r1 with ⟨mv, r2⟩
      rcases hS : parseComp 'S' r2 with ⟨sv, r3⟩
      simp only [hH, hM, hS] at hd
      by_cases hr3 : r3 = [] ∨ r3 = ['\n']
      · rw [if_pos hr3] at hd
        simp at hd
        obtain ⟨rfl, rfl, rfl⟩ := hd
        have hHopt : ∃ hp, PyOptComp 'H' hp hv ∧ rest = hp ++ r1 := by
          rcases parseComp_sound 'H' rest hv r1 hH with ⟨h0, hrl⟩ | ⟨d, hdr, hre⟩
          · exact ⟨[], Or.inl ⟨rfl, h0⟩, by rw [hrl]; simp⟩
          · exact ⟨d ++ ['H'], Or.inr ⟨d, hdr, rfl⟩, by rw [hre]; simp⟩
        have hMopt : ∃ mp, PyOptComp 'M' mp mv ∧ r1 = mp ++ r2 := by
          rcases parseComp_sound 'M' r1 mv r2 hM with ⟨h0, hrl⟩ | ⟨d, hdr, hre⟩
          · exact ⟨[], Or.inl ⟨rfl, h0⟩, by rw [hrl]; simp⟩
          · exact ⟨d ++ ['M'], Or.inr ⟨d, hdr, rfl⟩, by rw [hre]; simp⟩
        have hSopt : ∃ sp, PyOptComp 'S' sp sv ∧ r2 = sp ++ r3 := by
          rcases parseComp_sound 'S' r2 sv r3 hS with ⟨h0, hrl⟩ | ⟨d, hdr, hre⟩
          · exact ⟨[], Or.inl ⟨rfl, h0⟩, by simpa using hrl.symm⟩
          · exact ⟨d ++ ['S'], Or.inr ⟨d, hdr, rfl⟩, by rw [hre]; simp⟩
        obtain ⟨hp, hpo, hpe⟩ := hHopt
        obtain ⟨mp, hmo, hme⟩ := hMopt
        obtain ⟨sp, hso, hse⟩ := hSopt
        exact ⟨hp, mp, sp, r3, hpo, hmo, hso, hr3, by rw [hsd, hpe, hme, hse]⟩
      · rw [if_neg hr3] at hd
        cases hd
    · simp only [durParse, hsd] at hd
      rw [if_neg hpt] at hd
      cases hd

theorem specDigit_pyIsDigit (c : Char) (hc : isSpecDigit c = true) :
    pyIsDigit c = true := by
  simp [isSpecDigit] at hc
  refine List.any_eq_true.mpr ⟨48, by decide, ?_⟩
  simp only [Bool.and_eq_true, decide_eq_true_eq]
  omega

theorem specDigit_val (c : Char) (hc : isSpecDigit c = true) :
    pyDigitVal c = c.toNat - 48 := by
  simp [isSpecDigit] at hc
  have hp : (48 ≤ c.toNat && c.toNat < 48 + 10) = true := by
    simp only [Bool.and_eq_true, decide_eq_true_eq]
    omega
  have hfind : ndStarts.find? (fun s => s ≤ c.toNat && c.toNat < s + 10) =
      some 48 := by
    conv_lhs => rw [show ndStarts = 48 :: ndStarts.tail from rfl]
    exact @List.find?_cons_of_pos Nat
      (fun s => decide (s ≤ c.toNat) && decide (c.toNat < s + 10)) 48
      ndStarts.tail hp
  simp [pyDigitVal, hfind]

theorem digitsToNat_spec :
    ∀ l : List Char, (∀ c ∈ l, isSpecDigit c = true) →
    digitsToNat l = specDigitsToNat l := by
  have main : ∀ (l : List Char) (a : Nat), (∀ c ∈ l, isSpecDigit c = true) →
      l.foldl (fun a c => 10 * a + pyDigitVal c) a =
        l.foldl (fun a c => 10 * a + (c.toNat - 48)) a := by
    intro l
    induction l with
    | nil => intro a _; rfl
    | cons c rest ih =>
      intro a hl
      simp only [List.foldl_cons]
      rw [specDigit_val c (hl c (by simp)), ih _ (fun x hx => hl x (by simp [hx]))]
  intro l hl
  exact main l 0 hl

theorem grammar_to_pymatch (s : String) (h m sec : Nat)
    (hg : DurationGrammar s h m sec) : PyDurationMatch s h m sec := by
  obtain ⟨hp, mp, sp, hH, hM, hS, hdata⟩ := hg
  have conv : ∀ (marker : Char) (l : List Char) (n : Nat),
      OptComp marker l n → PyOptComp marker l n := by
    intro marker l n hopt
    rcases hopt with ⟨rfl, rfl⟩ | ⟨d, ⟨hne, hdig, hval⟩, rfl⟩
    · exact Or.inl ⟨rfl, rfl⟩
    · refine Or.inr ⟨d, ⟨hne, fun c hc => specDigit_pyIsDigit c (hdig c hc), ?_⟩, rfl⟩
      rw [digitsToNat_spec d hdig]
      exact hval
  exact ⟨hp, mp, sp, [], conv 'H' hp h hH, conv 'M' mp m hM, conv 'S' sp sec hS,
    Or.inl rfl, by rw [hdata]; simp⟩

/-- Claim C7 counterexample: the source regex accepts a grammar token
followed by one trailing newline (Python dollar anchor) and accepts
Unicode decimal digits in the runs (Python backslash-d with int), so two
tokens outside the claimed grammar decode to non-zero values instead of
the claimed 0. -/
theorem C7_counterexample :
    iso8601_duration_to_seconds "PT1S\n" = 1 ∧
    iso8601_duration_to_seconds "PT٣S" = 3 ∧
    iso8601_duration_to_seconds "PT1S\n" ≠ 0 ∧
    iso8601_duration_to_seconds "PT٣S" ≠ 0 := by
  decide

/-- Claim C7 (amended): the codec is total and non-negative; a token of
the spec grammar decodes to `hours * 3600 + minutes * 60 + seconds` with
omitted components 0 (`PT0S` gives 0); but the language the code accepts
is slightly larger than the grammar: digit runs may use any Unicode
decimal digits and the token may carry one final newline (the Python
dollar anchor matches just before it), and exactly the tokens outside
that larger language decode to 0 — in particular the non-grammar tokens
of the counterexample decode to 1 and 3, not 0. -/
theorem C7_amended_duration_codec :
    (∀ (s : String) (h m sec : Nat), DurationGrammar s h m sec →
      iso8601_duration_to_seconds s = h * 3600 + m * 60 + sec) ∧
    (∀ (s : String) (h m sec : Nat), PyDurationMatch s h m sec →
      iso8601_duration_to_seconds s = h * 3600 + m * 60 + sec) ∧
    (∀ s : String, (∀ h m sec : Nat, ¬ PyDurationMatch s h m sec) →
      iso8601_duration_to_seconds s = 0) ∧
    iso8601_duration_to_seconds "PT0S" = 0 ∧
    (∀ h m sec : Nat, ¬ DurationGrammar "PT1S\n" h m sec) ∧
    (∀ h m sec : Nat, ¬ DurationGrammar "PT٣S" h m sec) := by
  have hpy : ∀ (s : String) (h m sec : Nat), PyDurationMatch s h m sec →
      iso8601_duration_to_seconds s = h * 3600 + m * 60 + sec := by
    intro s h m sec hg
    simp [iso8601_duration_to_seconds, durParse_of_pymatch s h m sec hg]
  refine ⟨fun s h m sec hg => hpy s h m sec (grammar_to_pymatch s h m sec hg),
          hpy, ?_, by decide, ?_, ?_⟩
  · intro s hng
    cases hdp : durParse s with
    | none => simp [iso8601_duration_to_seconds, hdp]
    | some v =>
      obtain ⟨h, m, sec⟩ := v
      exact absurd (pymatch_of_durParse s h m sec hdp) (hng h m sec)
  · intro h m sec hg
    have hps := specDurParse_of_grammar "PT1S\n" h m sec hg
    rw [show specDurParse "PT1S\n" = none from rfl] at hps
    cases hps
  · intro h m sec hg
    have hps := specDurParse_of_grammar "PT٣S" h m sec hg
    rw [show specDurParse "PT٣S" = none from rfl] at hps
    cases hps

theorem C7_amended_duration_codec_witness :
    iso8601_duration_to_seconds "PT1H2M3S" = 1 * 3600 + 2 * 60 + 3 ∧
    iso8601_duration_to_seconds "PT1S\n" = 0 * 3600 + 0 * 60 + 1 :=
  ⟨C7_amended_duration_codec.1 "PT1H2M3S" 1 2 3
    (by
      refine ⟨['1', 'H'], ['2', 'M'], ['3', 'S'],
        Or.inr ⟨['1'], ⟨by decide, by decide, by decide⟩, rfl⟩,
        Or.inr ⟨['2'], ⟨by decide, by decide, by decide⟩, rfl⟩,
        Or.inr ⟨['3'], ⟨by decide, by decide, by decide⟩, rfl⟩, by decide⟩),
   C7_amended_duration_codec.2.1 "PT1S\n" 0 0 1
    (by
      refine ⟨[], [], ['1', 'S'], ['\n'],
        Or.inl ⟨rfl, rfl⟩, Or.inl ⟨rfl, rfl⟩,
        Or.inr ⟨['1'], ⟨by decide, by decide, by decide⟩, rfl⟩,
        Or.inr rfl, by decide⟩)⟩

/-- Claim C9: a duration token carrying a days or weeks component before
the time part, such as `P1DT2H3M4S`, starts with `P` followed by a digit
rather than the literal `PT` the regex is anchored to, so the codec
returns 0, and a video with such a duration is persisted with
`Video_duration` 0 rather than its true second count. -/
theorem C9_days_zero :
    iso8601_duration_to_seconds "P1DT2H3M4S" = 0 ∧
    (∀ (c : Char) (r : List Char), c.isDigit = true →
      iso8601_duration_to_seconds (String.mk ('P' :: c :: r)) = 0) ∧
    (∀ item : VideoApiItem, item.duration = some "P1DT2H3M4S" →
      (videoRecordOfItem item).Video_duration = 0) := by
  refine ⟨by decide, ?_, ?_⟩
  · intro c r hc
    have hct : c ≠ 'T' := by
      intro he
      subst he
      exact absurd hc (by decide)
    simp [iso8601_duration_to_seconds, durParse, hct]
  · intro item hdur
    simp only [videoRecordOfItem, hdur, Option.getD_some]
    decide

theorem C9_days_zero_witness :
    iso8601_duration_to_seconds (String.mk ('P' :: '1' :: "DT2H3M4S".data)) = 0 ∧
    (videoRecordOfItem c9item).Video_duration = 0 :=
  ⟨C9_days_zero.2.1 '1' "DT2H3M4S".data (by decide),
   C9_days_zero.2.2 c9item rfl⟩
